import Mathlib

/-!
Verification of the Leaf_Vision repository's chat proxy and image-prediction
endpoints against its natural-language specification.

The definitions below are a shallow embedding of `src/server/chat/views.py`
and `src/server/vision/views.py`.  Python values that can flow through the
JSON-ish parts of the code (request bodies, upstream responses, history
entries) are modelled by the inductive type `PyObj`; machine floats are
modelled by `ℚ`; code that can raise a Python exception returns `Except`.
External library calls (the HTTP stack, `json.loads`, the torch forward
pass) are modelled as explicit inputs: the executor receives the outcome of
each attempt, the JSON parser is an oracle argument, and the classifier's
softmax output is the probability list argument.
-/

/-- A Python value as it appears in JSON-shaped data: strings, dicts
(association lists, first binding wins as in `dict.get`), lists, numbers,
booleans and `None`. -/
inductive PyObj where
  | str (s : String)
  | dict (kv : List (String × PyObj))
  | list (xs : List PyObj)
  | num (q : ℚ)
  | bool (b : Bool)
  | null

/-- Python truthiness (`bool(x)`) for the modelled values: empty strings,
empty dicts, empty lists, zero and `None` are falsy. -/
def pyTruthy : PyObj → Bool
  | .str s => !s.isEmpty
  | .dict kv => !kv.isEmpty
  | .list xs => !xs.isEmpty
  | .num q => if q = 0 then false else true
  | .bool b => b
  | .null => false

/-- Python `a or b`: returns `a` when truthy, otherwise `b`. -/
def pyOr (a b : PyObj) : PyObj := if pyTruthy a then a else b

/-- Python `d.get(k)` on a dict: the bound value, or `None` when absent. -/
def pyGetD (kv : List (String × PyObj)) (k : String) : PyObj :=
  (kv.lookup k).getD .null

/-- Python `str.strip()` (modelled on the character list): drop whitespace
from both ends. -/
def stripChars (l : List Char) : List Char :=
  ((l.dropWhile Char.isWhitespace).reverse.dropWhile Char.isWhitespace).reverse

/-- Python `needle in hay` substring containment on character lists. -/
def containsSub (needle : List Char) : List Char → Bool
  | [] => needle.isPrefixOf []
  | c :: t => needle.isPrefixOf (c :: t) || containsSub needle t

/-- A word character in the sense of the regex `\w` (over the ASCII text the
endpoint handles): alphanumeric or underscore. -/
def isWordChar (c : Char) : Bool := c.isAlphanum || c = '_'

/-- Whether a position is a word boundary given the preceding character
(`none` at the start of the text): the regex `\b` succeeds when the
neighbouring character is absent or not a word character. -/
def boundaryOk : Option Char → Bool
  | none => true
  | some c => !isWordChar c

/-- Whether the pattern `\b w \b` matches at the current position, given the
character preceding the position. -/
def wbAt (w : List Char) (prev : Option Char) (t : List Char) : Bool :=
  boundaryOk prev && w.isPrefixOf t && boundaryOk (t.drop w.length).head?

/-- Scan of `re.search(rf"\b{w}\b", t)`: try the pattern at every position.
`prev` is the character just before the remaining text. -/
def wbSearchAux (w : List Char) : Option Char → List Char → Bool
  | prev, [] => wbAt w prev []
  | prev, c :: t => wbAt w prev (c :: t) || wbSearchAux w (some c) t

/-- `re.search(rf"\b{re.escape w}\b", t)` as a boolean: whole-word
containment of `w` in `t`. -/
def wbContains (w t : List Char) : Bool := wbSearchAux w none t

/-- Python `s.lower()` on the character list of a string. -/
def lowerChars (s : String) : List Char := s.data.map Char.toLower

/-- `SECTION_MAP` from `chat/views.py`: category keywords to canonical
section names, in source (insertion) order. -/
def SECTION_MAP : List (String × List (List Char)) :=
  [ ("prevention", ["prevention".data, "preventive".data, "avoidance".data])
  , ("treatment", ["treatment".data, "control".data, "management".data])
  , ("causes", ["cause".data, "causes".data, "etiology".data])
  , ("risk_factors", ["risk".data, "risk factor".data, "risk factors".data]) ]

/-- The outline-trigger keywords checked by substring containment in
`detect_outline_and_sections`. -/
def outlineKeywords : List (List Char) :=
  ["outline".data, "bullets".data, "bullet points".data, "bullet list".data,
   "list of".data, "make a list".data]

/-- `detect_outline_and_sections` from `chat/views.py`: lowercase the
message, detect outline mode by keyword containment, and when active collect
the section names whose synonym lists have a whole-word match, defaulting to
`prevention` when none match. -/
def detect_outline_and_sections (msg : String) : Bool × List String :=
  let m := lowerChars msg
  let outline := outlineKeywords.any (fun k => containsSub k m)
  let sections :=
    if outline then
      let secs := SECTION_MAP.filterMap
        (fun p => if p.2.any (fun s => wbContains s m) then some p.1 else none)
      if secs = [] then ["prevention"] else secs
    else []
  (outline, sections)

/-- The per-character step of the chat view's message normalization:
`ch.lower() if ch.isalnum() or ch.isspace() else ' '`. -/
def pyNormChar (c : Char) : Char :=
  if c.isAlphanum || c.isWhitespace then c.toLower else ' '

/-- `msg_norm` from the chat view: map the normalization step over the
message and strip both ends. -/
def msgNorm (s : String) : List Char :=
  stripChars (s.data.map pyNormChar)

/-- The fixed greeting phrase set of the chat view. -/
def greetings : List (List Char) :=
  ["hi".data, "hello".data, "hey".data, "good morning".data,
   "good afternoon".data, "good evening".data]

/-- The canned greeting reply returned without contacting the upstream. -/
def greetingReply : String :=
  "Hello. How may I assist you with leaf disease detection, causes, prevention, treatment, or risk factors?"

/-- The canned thanks reply returned without contacting the upstream. -/
def thanksReply : String :=
  "You're welcome. If you need more help with leaf diseases, please let me know."

/-- How the chat view disposes of a request before any network activity:
reject for a missing API key, answer with a canned reply, or proceed to the
upstream call. -/
inductive ChatDecision where
  | errorNoKey
  | canned (reply : String)
  | upstreamCall
  deriving DecidableEq

/-- The early-routing prefix of the `chat` view (`views.py` lines 173-198):
the API-key guard, then the greeting check (exact normalized match against
the greeting set, or a `hello`/`hi `/`hey` prefix), then the thanks check;
only a request passing all of these reaches `_call_openrouter`. -/
def chatEarlyRoute (hasKey : Bool) (message : String) : ChatDecision :=
  if !hasKey then .errorNoKey
  else
    let n := msgNorm message
    if greetings.contains n || "hello".data.isPrefixOf n
        || "hi ".data.isPrefixOf n || "hey".data.isPrefixOf n then
      .canned greetingReply
    else if ["thanks".data, "thank you".data, "thankyou".data].any
        (fun x => containsSub x n) then
      .canned thanksReply
    else .upstreamCall

/-- `TRANSIENT_STATUS` from `chat/views.py`. -/
def TRANSIENT_STATUS : List ℕ := [408, 409, 425, 429, 500, 502, 503, 504]

/-- The outcome the HTTP library produces for one `requests.post` attempt:
a response (with status, text, and the `resp.json()` parse when it
succeeds), a `Timeout`/`ConnectionError`, or any other exception. -/
inductive AttemptOutcome where
  | resp (status : ℕ) (text : String) (js : Option PyObj)
  | netErr (msg : String)
  | otherErr (msg : String)

/-- What `_call_openrouter` returns, together with the observable retry
behaviour: the final status/body/parse, the sequence of sleep durations
performed between attempts, and the number of the attempt that produced the
returned value. -/
structure CallResult where
  status : ℕ
  body : String
  js : Option PyObj
  sleeps : List ℚ
  attempts : ℕ

/-- The `while True` retry loop of `_call_openrouter`.  `outcomes i` is what
attempt number `i` observes.  `fuel` only bounds the recursion for Lean: the
loop itself exits through its own `attempt <= max_retries` checks, and with
the initial fuel of `maxRetries + 1` the zero-fuel arm is unreachable. -/
def callAux (outcomes : ℕ → AttemptOutcome) (maxRetries : ℕ) (baseDelay : ℚ) :
    ℕ → ℕ → List ℚ → CallResult
  | 0, attempt, sleeps => ⟨600, "unreachable: fuel exhausted", none, sleeps, attempt⟩
  | fuel + 1, attempt, sleeps =>
    match outcomes attempt with
    | .resp s t j =>
      if s ∈ TRANSIENT_STATUS ∧ attempt ≤ maxRetries then
        callAux outcomes maxRetries baseDelay fuel (attempt + 1)
          (sleeps ++ [baseDelay * (attempt : ℚ)])
      else ⟨s, t, j, sleeps, attempt⟩
    | .netErr e =>
      if attempt ≤ maxRetries then
        callAux outcomes maxRetries baseDelay fuel (attempt + 1)
          (sleeps ++ [baseDelay * (attempt : ℚ)])
      else ⟨599, e, none, sleeps, attempt⟩
    | .otherErr e => ⟨598, e, none, sleeps, attempt⟩

/-- `_call_openrouter` from `chat/views.py`: run the retry loop starting at
attempt 1 with no sleeps recorded. -/
def _call_openrouter (outcomes : ℕ → AttemptOutcome) (maxRetries : ℕ := 2)
    (baseDelay : ℚ := 3/2) : CallResult :=
  callAux outcomes maxRetries baseDelay (maxRetries + 1) 1 []

/-- The local error envelope built by `_format_upstream_error`
(`body["error"]` in the source). -/
structure ErrorBody where
  message : String
  upstreamStatus : ℕ
  retryable : Bool
  details : Option String
  deriving Repr

/-- The detail-extraction part of `_format_upstream_error`: parse the raw
body (the parse result of `json.loads(raw_text)` is the argument, `none`
when parsing raised) and pull a human-readable message out of the common
nested shapes. -/
def extractDetails (parsedRaw : Option PyObj) : Option String :=
  match parsedRaw with
  | some (.dict kv) =>
    let m0 := pyOr (pyGetD kv "error") (pyOr (pyGetD kv "message") (pyGetD kv "detail"))
    let m1 := match m0 with
      | .dict inner =>
        match pyOr (pyGetD inner "message") (pyOr (pyGetD inner "msg") (pyGetD inner "error")) with
        | .str s => PyObj.str s
        | _ => m0
      | _ => m0
    match m1 with
    | .str s => some (String.mk (s.data.take 500))
    | _ => none
  | _ => none

/-- `_format_upstream_error` from `chat/views.py`: map the upstream status
and (parsed) raw body to the local `(status_code, envelope)` pair.  The
default envelope computes `retryable` as membership in `TRANSIENT_STATUS`;
the specific branches only override `message` and the local status. -/
def _format_upstream_error (upStatus : ℕ) (parsedRaw : Option PyObj) : ℕ × ErrorBody :=
  let body : ErrorBody :=
    { message := "Upstream model request failed"
    , upstreamStatus := upStatus
    , retryable := decide (upStatus ∈ TRANSIENT_STATUS)
    , details := extractDetails parsedRaw }
  if upStatus = 401 then
    (401, { body with message := "Invalid or missing OpenRouter API key please try again" })
  else if upStatus = 403 then
    (403, { body with message := "Access forbidden by upstream (possible model restriction)" })
  else if upStatus = 404 then
    (502, { body with message := "Model or endpoint not found upstream" })
  else if upStatus = 429 then
    (429, { body with message := "Rate limit reached. Please retry later" })
  else if upStatus ∈ ([500, 502, 503, 504] : List ℕ) then
    (502, { body with message := "Upstream service is temporarily unavailable" })
  else if upStatus = 598 ∨ upStatus = 599 then
    (503, { body with message := "Network failure contacting upstream" })
  else if 400 ≤ upStatus ∧ upStatus < 500 then
    (502, { body with message := "Upstream rejected the request" })
  else (502, body)

/-- Python `l[-n:]`: the last `n` elements of a list (all of it when
shorter). -/
def lastN (n : ℕ) (l : List α) : List α := l.drop (l.length - n)

/-- The per-entry test of the history loop (`views.py` lines 221-223): a
dict entry is kept when its `role` is the string `user` or `assistant` and
its `content` is a string that is non-empty after stripping; the retained
turn carries the stripped content capped at 4000 characters. -/
def entryTurn (kv : List (String × PyObj)) : Option (String × List Char) :=
  match kv.lookup "role", kv.lookup "content" with
  | some (.str r), some (.str c) =>
    if (r = "user" ∨ r = "assistant") ∧ stripChars c.data ≠ [] then
      some (r, (stripChars c.data).take 4000)
    else none
  | _, _ => none

/-- The history loop body over the already-truncated window.  A non-dict
entry makes Python evaluate `m.get(...)` on an object without `get`, raising
`AttributeError`, which aborts the whole request (the view's outer handler
turns it into a 500); this is the `Except.error` arm. -/
def processWindow : List PyObj → Except String (List (String × List Char))
  | [] => .ok []
  | .dict kv :: es =>
    match entryTurn kv with
    | some t =>
      match processWindow es with
      | .ok ts => .ok (t :: ts)
      | .error e => .error e
    | none => processWindow es
  | _ :: _ => .error "AttributeError"

/-- The history-retention step of the `chat` view: truncate to the last 8
entries (`history[-8:]`), then run the loop over that window. -/
def buildHistory (history : List PyObj) : Except String (List (String × List Char)) :=
  processWindow (lastN 8 history)

/-- The retention rule as the specification words it: all valid turns are
kept, and that retained sequence is truncated to its last 8 elements.  Kept
for comparison with `buildHistory`, which truncates before filtering. -/
def claimedRetainedHistory (history : List PyObj) : List (String × List Char) :=
  lastN 8 (history.filterMap (fun e => match e with | .dict kv => entryTurn kv | _ => none))

/-- A concrete history input separating the two readings of the retention
rule: two valid user turns followed by eight entries with role `system`.
Truncating to the last 8 before filtering (the code) retains nothing;
filtering before truncating (the claim) retains both valid turns. -/
def historyOrderProbe : List PyObj :=
  PyObj.dict [("role", PyObj.str "user"), ("content", PyObj.str "a")] ::
  PyObj.dict [("role", PyObj.str "user"), ("content", PyObj.str "a")] ::
  List.replicate 8 (PyObj.dict [("role", PyObj.str "system"), ("content", PyObj.str "b")])

/-- What the `chat` view sends back on the success path: a raw reply (any
Python value that came out of the upstream content), a structured guide, or
an error response with a local HTTP status. -/
inductive ChatResponse where
  | reply (v : PyObj)
  | guide (g : List (String × PyObj))
  | error (httpStatus : ℕ) (msg : String)

/-- The content extraction
`js.get('choices', [{}])[0].get('message', {}).get('content', '')`
(`views.py` line 268).  Shapes on which Python would raise (indexing an
empty or non-list `choices`, `.get` on a non-dict) are the `Except.error`
arms; any such exception is caught by the view's outer handler as a 500. -/
def extractContent (j : PyObj) : Except String PyObj :=
  match j with
  | .dict kv =>
    match (kv.lookup "choices").getD (.list [.dict []]) with
    | .list [] => .error "IndexError"
    | .list (c0 :: _) =>
      match c0 with
      | .dict c0kv =>
        match (c0kv.lookup "message").getD (.dict []) with
        | .dict mkv => .ok ((mkv.lookup "content").getD (.str ""))
        | _ => .error "AttributeError"
      | _ => .error "AttributeError"
    | _ => .error "TypeError"
  | _ => .error "AttributeError"

/-- The post-200 tail of the `chat` view (`views.py` lines 261-282).
`jsonLoads` is the `json.loads` oracle (`none` models a parse exception; on
a non-string argument `json.loads` raises, which the inner `except` of the
force-JSON branch turns into the raw-text fallback).  `forceJsonActive` is
the guard `force_json and disease and not outline_mode` of line 272. -/
def handleUpstream200 (jsonLoads : String → Option PyObj) (forceJsonActive : Bool)
    (js : Option PyObj) (rawText : String) : ChatResponse :=
  let needsReparse := match js with | none => true | some j => !pyTruthy j
  let js2 : Option PyObj := if needsReparse then jsonLoads rawText else js
  match js2 with
  | none => .error 502 "Invalid JSON from upstream"
  | some j =>
    match extractContent j with
    | .error e => .error 500 e
    | .ok content =>
      if !pyTruthy content then .error 502 "Empty response from model"
      else if forceJsonActive then
        match content with
        | .str s =>
          match jsonLoads s with
          | some (.dict kv) => .guide kv
          | some _ => .reply content
          | none => .reply content
        | _ => .reply content
      else .reply content

/-- The accumulator loop behind `torch.max(probs, dim=-1)` on the CPU: keep
the first occurrence of the running maximum.  `cur` is the index of the head
of the remaining list. -/
def torchMaxAux : ℚ × ℕ → ℕ → List ℚ → ℚ × ℕ
  | best, _, [] => best
  | (bv, bi), cur, v :: rest =>
    if bv < v then torchMaxAux (v, cur) (cur + 1) rest
    else torchMaxAux (bv, bi) (cur + 1) rest

/-- `torch.max` over the probability vector: the maximal value and the index
of its first occurrence (the pair is `(0, 0)` on the empty vector, which the
model never produces). -/
def torchMax : List ℚ → ℚ × ℕ
  | [] => (0, 0)
  | v :: rest => torchMaxAux (v, 0) 1 rest

/-- One step of a first-occurrence maximum scan over indexed probabilities:
keep the incumbent unless the candidate is strictly larger.  Used to relate
`torchMax` to the head of the stable descending sort. -/
def fmStep (best cand : ℕ × ℚ) : ℕ × ℚ := if best.2 < cand.2 then cand else best

/-- Confidence-descending order on indexed probabilities, the sort key of
`torch.topk`. -/
def geRel (a b : ℕ × ℚ) : Prop := b.2 ≤ a.2

instance : DecidableRel geRel := fun a b => inferInstanceAs (Decidable (b.2 ≤ a.2))

instance : IsTotal (ℕ × ℚ) geRel := ⟨fun a b => le_total b.2 a.2⟩

instance : IsTrans (ℕ × ℚ) geRel := ⟨fun _ _ _ h1 h2 => le_trans h2 h1⟩

/-- `torch.topk(probs, k)` with `sorted=True`: the `k` largest entries of
the indexed vector in descending order of value.  A stable sort keeps ties
in index order, matching the first-occurrence convention of `torchMax`. -/
def torchTopk (k : ℕ) (probs : List ℚ) : List (ℕ × ℚ) :=
  (List.insertionSort geRel probs.enum).take k

/-- The label-resolution chain of `_predict_image`: the `id2label` mapping
when it binds the index, otherwise the synthetic `class_N` name.  (In the
source this is written twice — an `_id2label` branch, a `model.config`
branch and the fallback for the arg-max label, and `_id2label.get` with the
same fallback for the top list — but `_id2label` is loaded from
`model.config.id2label`, so both spellings reduce to this lookup.) -/
def resolveLabel (id2label : List (ℕ × String)) (i : ℕ) : String :=
  match id2label.lookup i with
  | some l => l
  | none => "class_" ++ toString i

/-- One ranked prediction entry `{label, confidence}`. -/
structure TopEntry where
  label : String
  confidence : ℚ
  deriving DecidableEq

/-- `PredictionResult`: the arg-max label, its confidence, and the ranked
top list. -/
structure PredictionResult where
  label : String
  confidence : ℚ
  top : List TopEntry
  deriving DecidableEq

/-- `_predict_image` from `vision/views.py` after the forward pass: `probs`
is the softmax output and `id2label` the index-to-label mapping of the model
config.  Computes the arg-max label and confidence and the top
`min 3 probs.length` ranked predictions. -/
def _predict_image (id2label : List (ℕ × String)) (probs : List ℚ) : PredictionResult :=
  let conf := (torchMax probs).1
  let labelIdx := (torchMax probs).2
  let label := resolveLabel id2label labelIdx
  let k := min 3 probs.length
  let top := (torchTopk k probs).map (fun p => ⟨resolveLabel id2label p.1, p.2⟩)
  ⟨label, conf, top⟩

/-- Python's `round` to an integer, half-to-even (banker's rounding),
modelled on `ℚ`. -/
def pyRoundQ (q : ℚ) : ℤ :=
  if q - ⌊q⌋ < 1/2 then ⌊q⌋
  else if 1/2 < q - ⌊q⌋ then ⌊q⌋ + 1
  else if ⌊q⌋ % 2 = 0 then ⌊q⌋ else ⌊q⌋ + 1

/-- `round(x, 4)` as applied at the response boundary of `predict`. -/
def round4 (q : ℚ) : ℚ := (pyRoundQ (q * 10000) : ℚ) / 10000

/-- The response shaping of the `predict` view (`views.py` lines 94-99):
round the confidences of `_predict_image`'s result to 4 decimal digits. -/
def predictResponse (id2label : List (ℕ × String)) (probs : List ℚ) : PredictionResult :=
  let r := _predict_image id2label probs
  ⟨r.label, round4 r.confidence, r.top.map (fun t => ⟨t.label, round4 t.confidence⟩)⟩

/-- The first-occurrence maximum scan never decreases the tracked value. -/
lemma fm_bound : ∀ (xs : List (ℕ × ℚ)) (a : ℕ × ℚ), a.2 ≤ (xs.foldl fmStep a).2 := by
  intro xs
  induction xs with
  | nil => intro a; exact le_refl _
  | cons y ys ih =>
    intro a
    simp only [List.foldl_cons]
    refine le_trans ?_ (ih (fmStep a y))
    unfold fmStep
    split_ifs with hh
    · exact le_of_lt hh
    · exact le_refl _

/-- The scan's result dominates every scanned element. -/
lemma fm_mem_bound : ∀ (xs : List (ℕ × ℚ)) (a z : ℕ × ℚ), z ∈ xs →
    z.2 ≤ (xs.foldl fmStep a).2 := by
  intro xs
  induction xs with
  | nil => intro a z hz; exact absurd hz (List.not_mem_nil z)
  | cons y ys ih =>
    intro a z hz
    simp only [List.foldl_cons]
    rcases List.mem_cons.mp hz with rfl | hz2
    · refine le_trans ?_ (fm_bound ys (fmStep a z))
      unfold fmStep
      split_ifs with hh
      · exact le_refl _
      · exact le_of_not_lt hh
    · exact ih (fmStep a y) z hz2

/-- An incumbent dominating all scanned elements survives the scan. -/
lemma fm_keep : ∀ (xs : List (ℕ × ℚ)) (a : ℕ × ℚ), (∀ z ∈ xs, z.2 ≤ a.2) →
    xs.foldl fmStep a = a := by
  intro xs
  induction xs with
  | nil => intro a _; rfl
  | cons y ys ih =>
    intro a h
    simp only [List.foldl_cons]
    have hy : fmStep a y = a := by
      unfold fmStep
      rw [if_neg (not_lt_of_le (h y (List.mem_cons_self y ys)))]
    rw [hy]
    exact ih a (fun z hz => h z (List.mem_cons_of_mem y hz))

/-- The scan's result is the incumbent or one of the scanned elements. -/
lemma fm_mem : ∀ (xs : List (ℕ × ℚ)) (a : ℕ × ℚ),
    xs.foldl fmStep a = a ∨ xs.foldl fmStep a ∈ xs := by
  intro xs
  induction xs with
  | nil => intro a; exact Or.inl rfl
  | cons y ys ih =>
    intro a
    simp only [List.foldl_cons]
    by_cases hh : a.2 < y.2
    · have hf : fmStep a y = y := by unfold fmStep; rw [if_pos hh]
      rw [hf]
      rcases ih y with h1 | h1
      · exact Or.inr (by rw [h1]; exact List.mem_cons_self y ys)
      · exact Or.inr (List.mem_cons_of_mem y h1)
    · have hf : fmStep a y = a := by unfold fmStep; rw [if_neg hh]
      rw [hf]
      rcases ih a with h1 | h1
      · exact Or.inl h1
      · exact Or.inr (List.mem_cons_of_mem y h1)

/-- A strictly dominated incumbent does not influence the scan. -/
lemma fm_shift : ∀ (l : List (ℕ × ℚ)) (b a : ℕ × ℚ), (∃ z ∈ b :: l, a.2 < z.2) →
    (b :: l).foldl fmStep a = l.foldl fmStep b := by
  intro l
  induction l with
  | nil =>
    intro b a h
    obtain ⟨z, hz, hlt⟩ := h
    rw [List.mem_singleton] at hz
    subst hz
    simp only [List.foldl_cons, List.foldl_nil]
    unfold fmStep
    rw [if_pos hlt]
  | cons c l2 ih =>
    intro b a h
    by_cases hab : a.2 < b.2
    · have hf : fmStep a b = b := by unfold fmStep; rw [if_pos hab]
      conv_lhs => rw [List.foldl_cons, hf]
    · obtain ⟨z, hz, hlt⟩ := h
      have hz2 : z ∈ c :: l2 := by
        rcases List.mem_cons.mp hz with rfl | h2
        · exact absurd hlt hab
        · exact h2
      have hf : fmStep a b = a := by unfold fmStep; rw [if_neg hab]
      have h1 : (b :: c :: l2).foldl fmStep a = (c :: l2).foldl fmStep a := by
        conv_lhs => rw [List.foldl_cons, hf]
      have h2 := ih c a ⟨z, hz2, hlt⟩
      have h3 := ih c b ⟨z, hz2, lt_of_le_of_lt (le_of_not_lt hab) hlt⟩
      rw [h1, h2, ← h3]

/-- The head of the stable confidence-descending sort is the
first-occurrence maximum of the list. -/
lemma sort_head : ∀ (xs : List (ℕ × ℚ)) (x : ℕ × ℚ),
    (List.insertionSort geRel (x :: xs)).head? = some (xs.foldl fmStep x) := by
  intro xs
  induction xs with
  | nil => intro x; rfl
  | cons y ys ih =>
    intro x
    have hstep : List.insertionSort geRel (x :: y :: ys)
        = List.orderedInsert geRel x (List.insertionSort geRel (y :: ys)) := rfl
    cases hs2 : List.insertionSort geRel (y :: ys) with
    | nil =>
      have hlen : (y :: ys).length = 0 := by
        rw [← List.length_insertionSort geRel (y :: ys), hs2]
        rfl
      simp at hlen
    | cons a S2 =>
      have ha : a = ys.foldl fmStep y := by
        have h0 := ih y
        rw [hs2] at h0
        simpa using h0
      rw [hstep, hs2, ha]
      by_cases hxm : geRel x (ys.foldl fmStep y)
      · simp only [List.orderedInsert]
        rw [if_pos hxm]
        have hxm' : (ys.foldl fmStep y).2 ≤ x.2 := hxm
        have hk : (y :: ys).foldl fmStep x = x := by
          apply fm_keep
          intro z hz
          rcases List.mem_cons.mp hz with rfl | hz2
          · exact le_trans (fm_bound ys z) hxm'
          · exact le_trans (fm_mem_bound ys y z hz2) hxm'
        rw [List.head?_cons, hk]
      · simp only [List.orderedInsert]
        rw [if_neg hxm]
        have hxm' : ¬ ((ys.foldl fmStep y).2 ≤ x.2) := hxm
        have hxlt : x.2 < (ys.foldl fmStep y).2 := not_le.mp hxm'
        have hm_mem : ys.foldl fmStep y ∈ y :: ys := by
          rcases fm_mem ys y with h1 | h1
          · rw [h1]; exact List.mem_cons_self _ _
          · exact List.mem_cons_of_mem y h1
        have hsh := fm_shift ys y x ⟨ys.foldl fmStep y, hm_mem, hxlt⟩
        rw [List.head?_cons, hsh]

/-- `torchMaxAux` computes the first-occurrence maximum of the indexed
remainder of the vector. -/
lemma torchMaxAux_eq : ∀ (ps : List ℚ) (bv : ℚ) (bi cur : ℕ),
    torchMaxAux (bv, bi) cur ps =
      (((ps.enumFrom cur).foldl fmStep (bi, bv)).2,
       ((ps.enumFrom cur).foldl fmStep (bi, bv)).1) := by
  intro ps
  induction ps with
  | nil => intro bv bi cur; rfl
  | cons v rest ih =>
    intro bv bi cur
    simp only [torchMaxAux, List.enumFrom_cons, List.foldl_cons]
    by_cases hh : bv < v
    · rw [if_pos hh]
      have hf : fmStep (bi, bv) (cur, v) = (cur, v) := by
        unfold fmStep
        rw [if_pos hh]
      rw [hf]
      exact ih v cur (cur + 1)
    · rw [if_neg hh]
      have hf : fmStep (bi, bv) (cur, v) = (bi, bv) := by
        unfold fmStep
        rw [if_neg hh]
      rw [hf]
      exact ih bv bi (cur + 1)

/-- Python's banker's rounding stays within one unit above the floor. -/
lemma pyRoundQ_bounds (q : ℚ) : ⌊q⌋ ≤ pyRoundQ q ∧ pyRoundQ q ≤ ⌊q⌋ + 1 := by
  unfold pyRoundQ
  split_ifs <;> omega

/-- Python's banker's rounding is monotone. -/
lemma pyRoundQ_mono {x y : ℚ} (h : x ≤ y) : pyRoundQ x ≤ pyRoundQ y := by
  rcases lt_or_le ⌊x⌋ ⌊y⌋ with hf | hf
  · have bx := pyRoundQ_bounds x
    have hy := pyRoundQ_bounds y
    omega
  · have hfe : ⌊x⌋ = ⌊y⌋ := le_antisymm (Int.floor_mono h) hf
    unfold pyRoundQ
    rw [hfe]
    have hxy : x - (⌊y⌋ : ℚ) ≤ y - (⌊y⌋ : ℚ) := by linarith
    split_ifs <;> first | omega | linarith

/-- Rounding to four decimal places is monotone. -/
lemma round4_mono {x y : ℚ} (h : x ≤ y) : round4 x ≤ round4 y := by
  unfold round4
  have h1 : pyRoundQ (x * 10000) ≤ pyRoundQ (y * 10000) := pyRoundQ_mono (by linarith)
  have h2 : ((pyRoundQ (x * 10000) : ℚ)) ≤ (pyRoundQ (y * 10000) : ℚ) := by exact_mod_cast h1
  linarith

/-- Unfolding step of the retry loop for an attempt that got an HTTP
response. -/
lemma callAux_resp (outcomes : ℕ → AttemptOutcome) (mr : ℕ) (bd : ℚ)
    (fuel attempt : ℕ) (sleeps : List ℚ) (s : ℕ) (t : String) (j : Option PyObj)
    (ho : outcomes attempt = AttemptOutcome.resp s t j) :
    callAux outcomes mr bd (fuel + 1) attempt sleeps =
      if s ∈ TRANSIENT_STATUS ∧ attempt ≤ mr then
        callAux outcomes mr bd fuel (attempt + 1) (sleeps ++ [bd * (attempt : ℚ)])
      else ⟨s, t, j, sleeps, attempt⟩ := by
  conv_lhs => simp only [callAux]
  rw [ho]

/-- C2: when every attempt observes a transient status, the executor (with
its default bound of 2 retries and base delay 3/2) performs exactly 3
attempts, sleeps twice with strictly increasing delays equal to the base
delay times the attempt number, and returns the status and body of the last
attempt. -/
theorem call_openrouter_all_transient (outcomes : ℕ → AttemptOutcome)
    (h : ∀ i, ∃ s t j, outcomes i = AttemptOutcome.resp s t j ∧ s ∈ TRANSIENT_STATUS) :
    ∃ s3 t3 j3, outcomes 3 = AttemptOutcome.resp s3 t3 j3 ∧
      _call_openrouter outcomes 2 (3/2) =
        ⟨s3, t3, j3, [3/2 * (1 : ℚ), 3/2 * (2 : ℚ)], 3⟩ ∧
      (3/2 * (1 : ℚ)) < (3/2 * (2 : ℚ)) := by
  obtain ⟨s1, t1, j1, e1, m1⟩ := h 1
  obtain ⟨s2, t2, j2, e2, m2⟩ := h 2
  obtain ⟨s3, t3, j3, e3, m3⟩ := h 3
  refine ⟨s3, t3, j3, e3, ?_, by norm_num⟩
  have u1 := callAux_resp outcomes 2 (3/2) 2 1 [] s1 t1 j1 e1
  rw [if_pos ⟨m1, by omega⟩] at u1
  have u2 := callAux_resp outcomes 2 (3/2) 1 (1 + 1) ([] ++ [(3/2 : ℚ) * ((1 : ℕ) : ℚ)])
    s2 t2 j2 (by simpa using e2)
  rw [if_pos ⟨m2, by omega⟩] at u2
  have u3 := callAux_resp outcomes 2 (3/2) 0 (1 + 1 + 1)
    (([] ++ [(3/2 : ℚ) * ((1 : ℕ) : ℚ)]) ++ [(3/2 : ℚ) * (((1 : ℕ) + 1 : ℕ) : ℚ)])
    s3 t3 j3 (by simpa using e3)
  rw [if_neg (by simp)] at u3
  have start : _call_openrouter outcomes 2 (3/2) = callAux outcomes 2 (3/2) (2 + 1) 1 [] := rfl
  rw [start, u1, u2, u3]
  norm_num

/-- Witness for `call_openrouter_all_transient`: every attempt returns a
503. -/
theorem call_openrouter_all_transient_witness :
    ∃ s3 t3 j3,
      (fun _ => AttemptOutcome.resp 503 "overloaded" none) 3 = AttemptOutcome.resp s3 t3 j3 ∧
      _call_openrouter (fun _ => AttemptOutcome.resp 503 "overloaded" none) 2 (3/2) =
        ⟨s3, t3, j3, [3/2 * (1 : ℚ), 3/2 * (2 : ℚ)], 3⟩ ∧
      (3/2 * (1 : ℚ)) < (3/2 * (2 : ℚ)) :=
  call_openrouter_all_transient _ (fun _ => ⟨503, "overloaded", none, rfl, by decide⟩)

/-- C9: for every chat request whose normalized message is one of the fixed
greeting phrases, the endpoint returns the canned greeting reply and never
reaches the upstream call. -/
theorem chat_greeting_no_upstream (msg : String) (h : msgNorm msg ∈ greetings) :
    chatEarlyRoute true msg = ChatDecision.canned greetingReply := by
  simp [chatEarlyRoute, h]

/-- Witness for `chat_greeting_no_upstream` at the message `"Hi!"` (its
normalization is `hi`, a member of the greeting set). -/
theorem chat_greeting_no_upstream_witness :
    chatEarlyRoute true "Hi!" = ChatDecision.canned greetingReply :=
  chat_greeting_no_upstream "Hi!" (by decide)

/-- C10: a normalized message that merely starts with `hello`, `hey`, or
`hi ` — even a substantive question — also gets the canned greeting reply
and never reaches the upstream call. -/
theorem chat_greeting_prefix_no_upstream (msg : String)
    (h : "hello".data.isPrefixOf (msgNorm msg) = true ∨
         "hey".data.isPrefixOf (msgNorm msg) = true ∨
         "hi ".data.isPrefixOf (msgNorm msg) = true) :
    chatEarlyRoute true msg = ChatDecision.canned greetingReply := by
  rcases h with h | h | h <;> simp [chatEarlyRoute, h]

/-- Witness for `chat_greeting_prefix_no_upstream` at a substantive question
that begins with `hey`. -/
theorem chat_greeting_prefix_no_upstream_witness :
    chatEarlyRoute true "Hey, what causes late blight in potatoes?" =
      ChatDecision.canned greetingReply :=
  chat_greeting_prefix_no_upstream "Hey, what causes late blight in potatoes?"
    (Or.inr (Or.inl (by decide)))

/-- C6: when the first attempt of the executor observes a non-transient
HTTP status, the executor returns that status and body after exactly one
attempt, with no sleeps. -/
theorem call_openrouter_non_transient (outcomes : ℕ → AttemptOutcome)
    (s : ℕ) (t : String) (j : Option PyObj)
    (h1 : outcomes 1 = AttemptOutcome.resp s t j) (h2 : s ∉ TRANSIENT_STATUS) :
    _call_openrouter outcomes 2 (3/2) = ⟨s, t, j, [], 1⟩ := by
  show callAux outcomes 2 (3/2) (2+1) 1 [] = _
  unfold callAux
  rw [h1]
  simp [h2]

/-- Witness for `call_openrouter_non_transient`: a 404 on the first attempt
is returned as-is. -/
theorem call_openrouter_non_transient_witness :
    _call_openrouter (fun _ => AttemptOutcome.resp 404 "not found" none) 2 (3/2) =
      ⟨404, "not found", none, [], 1⟩ :=
  call_openrouter_non_transient _ 404 "not found" none rfl (by decide)

/-- C1 (counterexample): a run whose every attempt fails with a network
timeout/connection error ends with the synthetic sentinel status 599, and
the error mapper marks that envelope `retryable := false` — contradicting
the claim that a network-level timeout yields a retryable envelope. -/
theorem retryable_network_sentinel_counterexample :
    (_call_openrouter (fun _ => AttemptOutcome.netErr "connection timed out") 2 (3/2)).status
        = 599 ∧
    (_format_upstream_error 599 none).2.retryable = false :=
  ⟨rfl, rfl⟩

/-- C1 (amended): the retryable flag of the error envelope is true exactly
when the upstream status lies in the transient set
{408, 409, 425, 429, 500, 502, 503, 504}; the network sentinel statuses 598
and 599 are not in that set, so network failures are marked non-retryable. -/
theorem retryable_iff_transient (s : ℕ) (raw : Option PyObj) :
    (_format_upstream_error s raw).2.retryable = true ↔
      (s = 408 ∨ s = 409 ∨ s = 425 ∨ s = 429 ∨
       s = 500 ∨ s = 502 ∨ s = 503 ∨ s = 504) := by
  have hr : (_format_upstream_error s raw).2.retryable = decide (s ∈ TRANSIENT_STATUS) := by
    unfold _format_upstream_error
    split_ifs <;> rfl
  rw [hr]
  simp [TRANSIENT_STATUS]

/-- Witness for `retryable_iff_transient` at the transient status 503. -/
theorem retryable_iff_transient_witness :
    (_format_upstream_error 503 none).2.retryable = true :=
  (retryable_iff_transient 503 none).mpr (by decide)

/-- Over a window whose entries are all dicts, the history loop is the
filterMap of the per-entry test. -/
lemma processWindow_map_dict (ms : List (List (String × PyObj))) :
    processWindow (ms.map PyObj.dict) = .ok (ms.filterMap entryTurn) := by
  induction ms with
  | nil => rfl
  | cons kv rest ih =>
    simp only [List.map_cons, processWindow, List.filterMap_cons]
    cases h : entryTurn kv <;> simp [h, ih]

/-- Taking the last `n` elements commutes with mapping. -/
lemma lastN_map (f : α → β) (n : ℕ) (l : List α) :
    lastN n (l.map f) = (lastN n l).map f := by
  simp [lastN]

/-- The last-`n` window has length at most `n`. -/
lemma lastN_length_le (n : ℕ) (l : List α) : (lastN n l).length ≤ n := by
  simp only [lastN, List.length_drop]
  omega

/-- C5 (counterexample): a history containing a non-dict entry makes the
prompt-composition step raise (Python evaluates `m.get` on an object
without that attribute), instead of silently skipping the entry. -/
theorem history_non_dict_raises_counterexample :
    buildHistory [PyObj.str "oops"] = Except.error "AttributeError" := rfl

/-- C5 (amended): the history step always terminates (it is a total
function of the input); it never raises when every entry is a dict, and a
dict entry with wrong-typed or missing role/content fields is silently
skipped.  A non-dict entry, however, raises, and the view's outer handler
turns that into a 500 response. -/
theorem history_total_and_skips_malformed_dicts :
    (∀ entries : List (List (String × PyObj)),
        ∃ ts, buildHistory (entries.map PyObj.dict) = Except.ok ts) ∧
    (∀ (kv : List (String × PyObj)) (ms : List PyObj), entryTurn kv = none →
        processWindow (PyObj.dict kv :: ms) = processWindow ms) := by
  constructor
  · intro entries
    refine ⟨(lastN 8 entries).filterMap entryTurn, ?_⟩
    unfold buildHistory
    rw [lastN_map]
    exact processWindow_map_dict _
  · intro kv ms h
    simp [processWindow, h]

/-- Witness for `history_total_and_skips_malformed_dicts`: an entry with
role `system` contributes nothing to the window. -/
theorem history_total_and_skips_malformed_dicts_witness :
    processWindow [PyObj.dict [("role", PyObj.str "system"), ("content", PyObj.str "x")]] =
      processWindow [] :=
  history_total_and_skips_malformed_dicts.2 _ _ (by decide)

/-- C4 (counterexample): the code truncates the history to its last 8
entries before filtering by role/content, so two valid turns followed by
eight invalid entries retain nothing — while the claim (filter first, then
keep the last 8 valid turns) would retain both valid turns. -/
theorem history_truncate_before_filter_counterexample :
    buildHistory historyOrderProbe ≠ Except.ok (claimedRetainedHistory historyOrderProbe) := by
  have h1 : buildHistory historyOrderProbe = Except.ok [] := rfl
  have h2 : claimedRetainedHistory historyOrderProbe =
      [("user", ['a']), ("user", ['a'])] := rfl
  rw [h1, h2]
  simp

/-- C4 (amended): for a history of dict entries, the code first truncates
to the last 8 entries and then retains, in order, exactly those with role
`user`/`assistant` and non-empty stripped string content; the retained list
has length at most 8 and every retained turn has a valid role and content
capped at 4000 characters. -/
theorem history_retention_truncate_then_filter (entries : List (List (String × PyObj))) :
    buildHistory (entries.map PyObj.dict) =
        Except.ok ((lastN 8 entries).filterMap entryTurn) ∧
    ((lastN 8 entries).filterMap entryTurn).length ≤ 8 ∧
    ∀ t ∈ (lastN 8 entries).filterMap entryTurn,
      (t.1 = "user" ∨ t.1 = "assistant") ∧ t.2.length ≤ 4000 := by
  refine ⟨?_, ?_, ?_⟩
  · unfold buildHistory
    rw [lastN_map]
    exact processWindow_map_dict _
  · exact le_trans (List.length_filterMap_le _ _) (lastN_length_le 8 entries)
  · intro t ht
    obtain ⟨kv, _, hkv⟩ := List.mem_filterMap.mp ht
    unfold entryTurn at hkv
    split at hkv
    · split at hkv
      · rename_i hcond
        cases hkv
        exact ⟨hcond.1, List.length_take_le _ _⟩
      · exact absurd hkv (by simp)
    · exact absurd hkv (by simp)

/-- Witness for `history_retention_truncate_then_filter` at a one-turn
history. -/
theorem history_retention_truncate_then_filter_witness :
    buildHistory ([[("role", PyObj.str "user"), ("content", PyObj.str "hello there")]].map
        PyObj.dict) =
      Except.ok ((lastN 8 [[("role", PyObj.str "user"), ("content", PyObj.str "hello there")]]).filterMap
        entryTurn) :=
  (history_retention_truncate_then_filter _).1

/-- C3 (counterexample): with structured output requested and a 200
upstream response whose message content is empty, the endpoint does not
degrade to a raw-text reply — it fails the request with a 502 error
(`Empty response from model`). -/
theorem force_json_empty_content_counterexample :
    handleUpstream200 (fun _ => none) true
        (some (PyObj.dict [("choices",
          PyObj.list [PyObj.dict [("message", PyObj.dict [("content", PyObj.str "")])]])]))
        "raw" = ChatResponse.error 502 "Empty response from model" := rfl

/-- C3 (amended): with structured output requested and a 200 upstream
response, a non-empty message content that fails to parse as JSON degrades
gracefully to a success-shaped raw-text reply; an empty content, however,
fails the request with a 502 error. -/
theorem force_json_nonjson_degrades_to_reply :
    (∀ (jsonLoads : String → Option PyObj) (j : PyObj) (raw s : String),
        pyTruthy j = true → extractContent j = Except.ok (PyObj.str s) → s ≠ "" →
        jsonLoads s = none →
        handleUpstream200 jsonLoads true (some j) raw = ChatResponse.reply (PyObj.str s)) ∧
    (∀ (jsonLoads : String → Option PyObj) (j : PyObj) (raw : String),
        pyTruthy j = true → extractContent j = Except.ok (PyObj.str "") →
        handleUpstream200 jsonLoads true (some j) raw =
          ChatResponse.error 502 "Empty response from model") := by
  constructor
  · intro jsonLoads j raw s hT hE hs hL
    simp only [handleUpstream200, hT, hE, Bool.not_true, Bool.false_eq_true, if_false]
    simp [pyTruthy, hL, String.isEmpty_iff, hs]
  · intro jsonLoads j raw hT hE
    simp only [handleUpstream200, hT, hE, Bool.not_true, Bool.false_eq_true, if_false]
    simp [pyTruthy]
    intro hfalse
    exact absurd hfalse (by decide)

/-- C7: outline-mode detection — a message containing `make a list` but no
whole-word section keyword puts the detector in outline mode with exactly
the default section `prevention`; a message containing the word `treatment`
and the substring `outline` puts it in outline mode with `treatment` among
the detected sections. -/
theorem detect_outline_default_and_treatment :
    (∀ msg : String,
        containsSub "make a list".data (lowerChars msg) = true →
        (∀ p ∈ SECTION_MAP, ∀ s ∈ p.2, wbContains s (lowerChars msg) = false) →
        detect_outline_and_sections msg = (true, ["prevention"])) ∧
    (∀ msg : String,
        wbContains "treatment".data (lowerChars msg) = true →
        containsSub "outline".data (lowerChars msg) = true →
        (detect_outline_and_sections msg).1 = true ∧
          "treatment" ∈ (detect_outline_and_sections msg).2) := by
  constructor
  · intro msg h1 h2
    have ho : outlineKeywords.any (fun k => containsSub k (lowerChars msg)) = true :=
      List.any_eq_true.mpr ⟨"make a list".data, by simp [outlineKeywords], h1⟩
    have hs : SECTION_MAP.filterMap
        (fun p => if p.2.any (fun s => wbContains s (lowerChars msg)) then some p.1 else none)
          = [] := by
      rw [List.filterMap_eq_nil_iff]
      intro p hp
      rw [if_neg]
      intro hc
      obtain ⟨s, hsmem, hw⟩ := List.any_eq_true.mp hc
      rw [h2 p hp s hsmem] at hw
      exact absurd hw (by simp)
    simp only [detect_outline_and_sections, ho]
    rw [hs]
    simp
  · intro msg h1 h2
    have ho : outlineKeywords.any (fun k => containsSub k (lowerChars msg)) = true :=
      List.any_eq_true.mpr ⟨"outline".data, by simp [outlineKeywords], h2⟩
    have hmem : "treatment" ∈ SECTION_MAP.filterMap
        (fun p => if p.2.any (fun s => wbContains s (lowerChars msg)) then some p.1 else none) := by
      apply List.mem_filterMap.mpr
      refine ⟨("treatment", ["treatment".data, "control".data, "management".data]),
        by simp [SECTION_MAP], ?_⟩
      rw [if_pos]
      · exact List.any_eq_true.mpr ⟨"treatment".data, by simp, h1⟩
    have hne : SECTION_MAP.filterMap
        (fun p => if p.2.any (fun s => wbContains s (lowerChars msg)) then some p.1 else none)
          ≠ [] := by
      intro hnil
      rw [hnil] at hmem
      exact absurd hmem (by simp)
    have heq : detect_outline_and_sections msg =
        (true, SECTION_MAP.filterMap
          (fun p => if p.2.any (fun s => wbContains s (lowerChars msg)) then some p.1 else none)) := by
      simp only [detect_outline_and_sections, ho]
      rw [if_pos trivial, if_neg hne]
    rw [heq]
    exact ⟨rfl, hmem⟩

/-- Witness for `detect_outline_default_and_treatment` at the messages
`please make a list` and `outline the treatment`. -/
theorem detect_outline_default_and_treatment_witness :
    detect_outline_and_sections "please make a list" = (true, ["prevention"]) ∧
    ((detect_outline_and_sections "outline the treatment").1 = true ∧
      "treatment" ∈ (detect_outline_and_sections "outline the treatment").2) :=
  ⟨detect_outline_default_and_treatment.1 "please make a list" (by decide) (by decide),
   detect_outline_default_and_treatment.2 "outline the treatment" (by decide) (by decide)⟩

/-- Witness for `force_json_nonjson_degrades_to_reply`: a content string
the JSON parser rejects is returned as a raw reply. -/
theorem force_json_nonjson_degrades_to_reply_witness :
    handleUpstream200 (fun _ => none) true
        (some (PyObj.dict [("choices",
          PyObj.list [PyObj.dict [("message", PyObj.dict [("content", PyObj.str "not json")])]])]))
        "" = ChatResponse.reply (PyObj.str "not json") :=
  force_json_nonjson_degrades_to_reply.1 (fun _ => none) _ "" "not json" rfl rfl
    (by decide) rfl

/-- C8: for every successful prediction, the response's top list has length
at most 3, is sorted in descending order of confidence, is non-empty, and
its first entry's label equals the arg-max label returned as the
prediction's main label. -/
theorem prediction_top3_sorted_argmax (id2label : List (ℕ × String)) (probs : List ℚ)
    (h : probs ≠ []) :
    (predictResponse id2label probs).top.length ≤ 3 ∧
    List.Pairwise (fun a b : TopEntry => b.confidence ≤ a.confidence)
      (predictResponse id2label probs).top ∧
    (predictResponse id2label probs).top ≠ [] ∧
    ((predictResponse id2label probs).top.headD ⟨"", 0⟩).label =
      (predictResponse id2label probs).label := by
  obtain ⟨p, ps, rfl⟩ := List.exists_cons_of_ne_nil h
  have henum : (p :: ps).enum = (0, p) :: ps.enumFrom 1 := by
    simp [List.enum_cons]
  have hhead := sort_head (ps.enumFrom 1) (0, p)
  cases hs : List.insertionSort geRel ((p :: ps).enum) with
  | nil =>
    rw [henum] at hs
    rw [hs] at hhead
    simp at hhead
  | cons a rest =>
    have ha : a = (ps.enumFrom 1).foldl fmStep (0, p) := by
      rw [henum] at hs
      rw [hs] at hhead
      simpa using hhead
    have htop : (predictResponse id2label (p :: ps)).top
        = (torchTopk (min 3 (p :: ps).length) (p :: ps)).map
            (fun q => ⟨resolveLabel id2label q.1, round4 q.2⟩) := by
      simp [predictResponse, _predict_image, List.map_map, Function.comp]
    have hlabel : (predictResponse id2label (p :: ps)).label
        = resolveLabel id2label (torchMax (p :: ps)).2 := by
      simp [predictResponse, _predict_image]
    have hkpos : 1 ≤ min 3 (p :: ps).length := by
      simp [List.length_cons]
    have htk : torchTopk (min 3 (p :: ps).length) (p :: ps)
        = a :: rest.take (min 3 (p :: ps).length - 1) := by
      unfold torchTopk
      rw [hs]
      cases hmin : min 3 (p :: ps).length with
      | zero => omega
      | succ n => simp
    have hsorted : List.Pairwise geRel (a :: rest) := by
      have := List.sorted_insertionSort geRel ((p :: ps).enum)
      rw [hs] at this
      exact this
    have htm : (torchMax (p :: ps)).2 = ((ps.enumFrom 1).foldl fmStep (0, p)).1 := by
      show (torchMaxAux (p, 0) 1 ps).2 = _
      rw [torchMaxAux_eq]
    refine ⟨?_, ?_, ?_, ?_⟩
    · rw [htop, htk, List.length_map, List.length_cons]
      have h1 := List.length_take_le (min 3 (p :: ps).length - 1) rest
      have h2 : min 3 (p :: ps).length ≤ 3 := Nat.min_le_left _ _
      omega
    · rw [htop, htk]
      apply List.pairwise_map.mpr
      have hsub : List.Sublist (a :: rest.take (min 3 (p :: ps).length - 1)) (a :: rest) :=
        List.cons_sublist_cons.mpr (List.take_sublist _ _)
      exact (List.Pairwise.sublist hsub hsorted).imp (fun hab => round4_mono hab)
    · rw [htop, htk]
      simp
    · rw [htop, htk, hlabel, htm, ha]
      rfl

/-- Witness for `prediction_top3_sorted_argmax` on a two-class softmax
output. -/
theorem prediction_top3_sorted_argmax_witness :
    (predictResponse [(0, "healthy"), (1, "rust")] [1/4, 3/4]).top.length ≤ 3 ∧
    List.Pairwise (fun a b : TopEntry => b.confidence ≤ a.confidence)
      (predictResponse [(0, "healthy"), (1, "rust")] [1/4, 3/4]).top ∧
    (predictResponse [(0, "healthy"), (1, "rust")] [1/4, 3/4]).top ≠ [] ∧
    ((predictResponse [(0, "healthy"), (1, "rust")] [1/4, 3/4]).top.headD ⟨"", 0⟩).label =
      (predictResponse [(0, "healthy"), (1, "rust")] [1/4, 3/4]).label :=
  prediction_top3_sorted_argmax _ _ (by simp)
